import Mathlib

/-!
Verification of the decision core of `system_guardian_pro.py` (the
Sampling & Anomaly Engine and the Cleanup Prioritization Engine).

Numeric values are modelled by exact rationals `ℚ` (the Python code uses
floats; the spec describes exact arithmetic).  Python's `round(x, d)`
(round-half-to-even at the `d`-th decimal) is modelled by `roundTo`.
`statistics.stdev` computes the square root of the Bessel-corrected sample
variance; since that square root is irrational in general, the detector is
embedded with the equivalent squared comparisons (`σ > 0.5  ↔  σ² > 1/4`,
`|v−μ| > t·σ  ↔  (v−μ)² > t²·σ²` for `t, σ ≥ 0`), and the equivalence with
the square-root form is proved as a theorem.
-/

namespace SystemGuardian

/-- `statistics.mean` over a window (sum divided by length). -/
def mean (w : List ℚ) : ℚ := w.sum / (w.length : ℚ)

/-- Square of `statistics.stdev`: the Bessel-corrected sample variance,
`Σ (x − μ)² / (n − 1)`. -/
def sampleVariance (w : List ℚ) : ℚ :=
  ((w.map (fun x => (x - mean w) ^ 2)).sum) / ((w.length : ℚ) - 1)

/-- Embeds `statistics.stdev(baseline) if len(baseline) > 1 else 0`
from `_detect_anomalies`, squared. -/
def stdevSqOrZero (w : List ℚ) : ℚ := if 1 < w.length then sampleVariance w else 0

/-- `self.anomaly_threshold` (set to `2.0` in `__init__`). -/
def anomalyThreshold : ℚ := 2

/-- Embeds the per-signal body of `_detect_anomalies`: with at least 10
baseline samples, flag iff `std_val > 0.5 and abs(value - mean_val) >
anomaly_threshold * std_val`; the two comparisons on the (nonnegative)
standard deviation are represented by their squares. -/
def detectAnomaly (w : List ℚ) (v : ℚ) : Bool :=
  if 10 ≤ w.length then
    decide ((1/4 : ℚ) < stdevSqOrZero w ∧
      anomalyThreshold ^ 2 * stdevSqOrZero w < (v - mean w) ^ 2)
  else false

/-- Python's banker's rounding of a rational to an integer
(ties go to the even integer). -/
def roundHalfEven (q : ℚ) : ℤ :=
  if q - (⌊q⌋ : ℚ) < 1/2 then ⌊q⌋
  else if 1/2 < q - (⌊q⌋ : ℚ) then ⌊q⌋ + 1
  else if Even ⌊q⌋ then ⌊q⌋ else ⌊q⌋ + 1

/-- Python's `round(q, d)` on exact rationals. -/
def roundTo (d : ℕ) (q : ℚ) : ℚ := ((roundHalfEven (q * 10 ^ d) : ℤ) : ℚ) / 10 ^ d

/-- Python's slice `l[-k:]` (note `l[-0:]` is the whole list). -/
def pySliceLast (k : ℕ) (l : List ℚ) : List ℚ :=
  if k = 0 then l else l.drop (l.length - k)

/-- Embeds one signal's update in `_update_ml_baseline`: append, then keep
the last `window_size` entries when the window exceeds it. -/
def updateBaseline (cap : ℕ) (w : List ℚ) (v : ℚ) : List ℚ :=
  let w2 := w ++ [v]
  if cap < w2.length then pySliceLast cap w2 else w2

/-- Feed a sequence of values through `_update_ml_baseline` starting from
the empty window of `__init__`. -/
def runBaseline (cap : ℕ) (vs : List ℚ) : List ℚ := vs.foldl (updateBaseline cap) []

/-- One monitoring cycle per `get_system_metrics`: `_detect_anomalies`
runs on the current baseline window (line 117), and only afterwards is the
sample recorded by `_update_ml_baseline` (line 120).  Returns the anomaly
flag of each successive sample, with the default window capacity 50. -/
def monitorFlags : List ℚ → List ℚ → List Bool
  | _, [] => []
  | w, v :: rest => detectAnomaly w v :: monitorFlags (updateBaseline 50 w v) rest

/-- Embeds `_calculate_health_score`. -/
def healthScore (cpu memory disk : ℚ) : ℚ :=
  let cpu_score := max 0 (100 - cpu)
  let memory_score := max 0 (100 - memory)
  let disk_score := max 0 (100 - disk)
  let weighted := cpu_score * (4/10) + memory_score * (4/10) + disk_score * (2/10)
  let weighted2 := if 90 < cpu ∨ 95 < memory then weighted * (1/2) else weighted
  roundTo 1 weighted2

/-- Health-score formula as the spec sentence words it (claim C3):
`round(0.4·max(0,100−cpu) + 0.4·max(0,100−memory) + 0.2·max(0,100−disk), 1)`,
the weighted value being halved before rounding when `cpu>90 ∨ memory>95`. -/
def healthScoreSpecFormula (cpu memory disk : ℚ) : ℚ :=
  roundTo 1
    (if 90 < cpu ∨ 95 < memory then
      (4/10 * max 0 (100 - cpu) + 4/10 * max 0 (100 - memory) +
        2/10 * max 0 (100 - disk)) / 2
    else
      4/10 * max 0 (100 - cpu) + 4/10 * max 0 (100 - memory) +
        2/10 * max 0 (100 - disk))

/-- Lowercasing as `str.lower()` (ASCII case abstraction). -/
def lowerStr (s : String) : String := String.mk (s.data.map Char.toLower)

/-- Python's substring test `needle in hay`. -/
def strContains (hay needle : String) : Bool :=
  (List.range (hay.data.length + 1)).any fun i => needle.data.isPrefixOf (hay.data.drop i)

/-- `pathlib.PurePath.suffix`: the extension of the final path component,
everything from its last dot on; empty when the component has no dot, when
its only dot comes first (hidden files), or when it ends with the dot. -/
def pySuffix (p : String) : String :=
  let name := (p.data.reverse.takeWhile (fun c => c ≠ '/')).reverse
  match name.reverse.findIdx? (fun c => c = '.') with
  | none => ""
  | some k =>
    if 0 < k ∧ k < name.length - 1 then String.mk ((name.reverse.take (k + 1)).reverse)
    else ""

/-- The `file_categories` dictionary of `scan_cleanup_targets`, in
iteration order. -/
def fileCategories : List (String × List String) :=
  [("temp", [".tmp", ".cache"]), ("logs", [".log", ".out"]), ("backup", [".bak", ".old"])]

/-- All disposable-category extensions, as flattened by the
`for cat_exts in categories.values() for ext in cat_exts` comprehension. -/
def disposableExts : List String := fileCategories.flatMap (fun c => c.2)

/-- `timedelta.days` of `now − mtime` (both in seconds): floor division
by 86400. -/
def pyAgeDays (now mtime : ℚ) : ℤ := ⌊(now - mtime) / 86400⌋

/-- Embeds `_calculate_cleanup_priority`.  Note the source tests
`ext in file_ext`, i.e. substring containment of each disposable extension
in the file's lowercased suffix, not membership of the suffix in the set. -/
def cleanupPriority (now : ℚ) (path : String) (mtime : ℚ) (size_mb : ℚ) : ℚ :=
  let age_days := pyAgeDays now mtime
  let age_score := min 1 ((age_days : ℚ) / 30)
  let size_score := min 1 (size_mb / 100)
  let file_ext := lowerStr (pySuffix path)
  let type_score : ℚ :=
    if disposableExts.any (fun e => strContains file_ext e) then 8/10 else 3/10
  let location_score : ℚ := if strContains (lowerStr path) "temp" then 9/10 else 5/10
  roundTo 3 (age_score * (4/10) + size_score * (3/10) + type_score * (2/10) +
    location_score * (1/10))

/-- Type score exactly as claim C4 words it: 0.8 exactly when the file's
extension is one of the six disposable extensions. -/
def claimTypeScoreMember (path : String) : ℚ :=
  if lowerStr (pySuffix path) ∈ disposableExts then 8/10 else 3/10

/-- Type score as the counterexample forces the claim to be amended:
0.8 exactly when the lowercased extension contains one of the six
disposable extensions as a substring. -/
def claimTypeScoreSub (path : String) : ℚ :=
  if disposableExts.any (fun e => strContains (lowerStr (pySuffix path)) e) then 8/10
  else 3/10

/-- Location score as claim C4 words it. -/
def claimLocationScore (path : String) : ℚ :=
  if strContains (lowerStr path) "temp" then 9/10 else 5/10

/-- Priority formula exactly as claim C4 words it (membership type score). -/
def claimPriorityMember (path : String) (age_days : ℤ) (size_mb : ℚ) : ℚ :=
  roundTo 3 (4/10 * min 1 ((age_days : ℚ) / 30) + 3/10 * min 1 (size_mb / 100) +
    2/10 * claimTypeScoreMember path + 1/10 * claimLocationScore path)

/-- Priority formula of claim C4 with the type score amended to substring
containment. -/
def claimPriorityAmended (path : String) (age_days : ℤ) (size_mb : ℚ) : ℚ :=
  roundTo 3 (4/10 * min 1 ((age_days : ℚ) / 30) + 3/10 * min 1 (size_mb / 100) +
    2/10 * claimTypeScoreSub path + 1/10 * claimLocationScore path)

/-- Embeds `_categorize_file`: the first category owning an extension that
occurs in the lowercased suffix or anywhere in the lowercased path. -/
def categorizeFile (p : String) : String :=
  match fileCategories.find? (fun c =>
      c.2.any fun e => strContains (lowerStr (pySuffix p)) e || strContains (lowerStr p) e) with
  | some c => c.1
  | none => "unknown"

/-- Embeds `_assess_file_safety`. -/
def assessFileSafety (p : String) : ℚ :=
  if ["system", "program", "windows", "config"].any (fun pat => strContains (lowerStr p) pat)
  then 1/10
  else if lowerStr (pySuffix p) ∈ [".exe", ".dll", ".sys"] then 3/10
  else 9/10

/-- A file stat record as the directory walk yields it. -/
structure FileRec where
  path : String
  mtime : ℚ
  size_bytes : ℚ
deriving DecidableEq

/-- A cleanup candidate as built by `scan_cleanup_targets`. -/
structure Target where
  path : String
  size_mb : ℚ
  age_days : ℤ
  priority : ℚ
  category : String
  safety_score : ℚ
deriving DecidableEq

/-- Stable insertion modelling Python's stable
`sorted(targets, key=priority, reverse=True)`: a candidate goes after every
already placed candidate of greater or equal priority. -/
def insertByPriority (t : Target) : List Target → List Target
  | [] => [t]
  | h :: rest =>
    if h.priority < t.priority then t :: h :: rest else h :: insertByPriority t rest

/-- Stable descending sort by priority. -/
def sortByPriorityDesc (l : List Target) : List Target :=
  l.foldl (fun acc t => insertByPriority t acc) []

/-- Embeds `scan_cleanup_targets` over an abstract enumeration of file stat
records; files whose stat raises are simply absent from the enumeration
(the per-file `except: pass`). -/
def scanCleanupTargets (maxFileAgeDays : ℚ) (now : ℚ) (files : List FileRec) : List Target :=
  let cutoff := now - maxFileAgeDays * 86400
  let targets := files.filterMap fun f =>
    let size_mb := f.size_bytes / (1024 ^ 2)
    let pr := cleanupPriority now f.path f.mtime size_mb
    if f.mtime < cutoff ∧ 1/5 < pr then
      some { path := f.path, size_mb := size_mb, age_days := pyAgeDays now f.mtime,
             priority := pr, category := categorizeFile f.path,
             safety_score := assessFileSafety f.path }
    else none
  sortByPriorityDesc targets

/-- The mutable `SystemGuardian` state that survives across cycles. -/
structure GuardianState where
  maxFileAgeDays : ℚ
  mlBaselineCpu : List ℚ
  mlBaselineMemory : List ℚ
  mlBaselineDisk : List ℚ
  optimizationScore : ℚ
deriving DecidableEq

/-- `scan_cleanup_targets` as a state transformer: it reads
`self.config` and writes no attribute of `self`. -/
def scanWithState (g : GuardianState) (now : ℚ) (files : List FileRec) :
    List Target × GuardianState :=
  (scanCleanupTargets g.maxFileAgeDays now files, g)

/-- A per-signal trend record. -/
structure Trend where
  direction : String
  rate : ℚ
deriving DecidableEq

/-- Embeds the per-signal body of `_analyze_trends`. -/
def analyzeTrend (w : List ℚ) : Option Trend :=
  if 5 ≤ w.length then
    let recent := pySliceLast 5 w
    if 1 < recent.length then
      let slope := ((recent[recent.length - 1]?).getD 0 - (recent[0]?).getD 0) /
        (recent.length : ℚ)
      some ⟨if 1 < slope then "increasing" else if slope < -1 then "decreasing" else "stable",
        roundTo 2 slope⟩
    else none
  else none

/-- The trend slope as claim C8 words it: (last window entry − entry five
from the end) / 5. -/
def trendSlope (w : List ℚ) : ℚ :=
  ((w[w.length - 1]?).getD 0 - (w[w.length - 5]?).getD 0) / 5

/-- The filesystem as the cleanup executor sees it: a current size per
existing path, plus which paths make `stat` or `unlink` raise. -/
structure FS where
  size : String → Option ℕ
  statFails : String → Bool
  unlinkFails : String → Bool

/-- Embeds `_final_safety_check`: a disallowed extension or an
over-100MB stat gives False (a raising stat lands in `except: return
False`); otherwise the path must contain neither system32 nor
program files. -/
def finalSafetyCheck (fs : FS) (p : String) : Bool :=
  if lowerStr (pySuffix p) ∈ [".exe", ".dll", ".sys"] then false
  else if fs.statFails p then false
  else
    match fs.size p with
    | none => false
    | some sz =>
      if 100 * 1024 * 1024 < sz then false
      else !(strContains (lowerStr p) "system32" || strContains (lowerStr p) "program files")

/-- Running statistics of one `perform_cleanup` invocation.  `removedRev`
(most recent first) records which targets were actually unlinked, and
`categoriesLog` models the category counter with one entry per removal. -/
structure RunState where
  cleanedCount : ℕ
  cleanedSize : ℕ
  categoriesLog : List String
  safetySkipped : ℕ
  removedRev : List Target
deriving DecidableEq

/-- The `0, 0, {}`-shaped empty outcome. -/
def initRun : RunState := ⟨0, 0, [], 0, []⟩

/-- `Path.exists()` during the batch: present in the filesystem and not
already unlinked earlier in this batch. -/
def fileExistsIn (fs : FS) (s : RunState) (p : String) : Bool :=
  (fs.size p).isSome && !((s.removedRev.map Target.path).contains p)

/-- One iteration of the `for target in safe_targets[:15]` loop.  The
inner `try` swallows a raising `stat`/`unlink` and leaves every counter as
it was; a file that is gone or fails the final safety check is counted as
safety-skipped. -/
def cleanupStep (fs : FS) (s : RunState) (t : Target) : RunState :=
  if fileExistsIn fs s t.path && finalSafetyCheck fs t.path then
    if fs.statFails t.path || fs.unlinkFails t.path then s
    else
      { cleanedCount := s.cleanedCount + 1
        cleanedSize := s.cleanedSize + (fs.size t.path).getD 0
        categoriesLog := t.category :: s.categoriesLog
        safetySkipped := s.safetySkipped
        removedRev := t :: s.removedRev }
  else { s with safetySkipped := s.safetySkipped + 1 }

/-- Embeds `perform_cleanup`: nothing happens unless auto-cleanup is
enabled; candidates with `safety_score > 0.7` and `priority > 0.5` are
selected and the batch is capped at 15. -/
def performCleanup (autoCleanup : Bool) (fs : FS) (targets : List Target) : RunState :=
  if autoCleanup then
    let safeTargets := targets.filter fun t =>
      decide ((7/10 : ℚ) < t.safety_score ∧ (5/10 : ℚ) < t.priority)
    (safeTargets.take 15).foldl (cleanupStep fs) initRun
  else initRun

/-- The 12-sample scenario of claim C1: cpu constant at 50 except the 11th
sample, which is 99. -/
def c1Samples : List ℚ := [50, 50, 50, 50, 50, 50, 50, 50, 50, 50, 99, 50]

/-- Selected example candidate whose unlink raises in `exampleFS`. -/
def exampleTargetA : Target := ⟨"a.tmp", 1/100, 40, 8/10, "temp", 9/10⟩

/-- Selected example candidate whose removal succeeds in `exampleFS`. -/
def exampleTargetB : Target := ⟨"b.tmp", 1/100, 40, 8/10, "temp", 9/10⟩

/-- A filesystem where both example files exist, stat always succeeds and
unlinking a.tmp raises. -/
def exampleFS : FS :=
  ⟨fun p => if p = "a.tmp" then some 10 else if p = "b.tmp" then some 20 else none,
   fun _ => false,
   fun p => p == "a.tmp"⟩

/-! ### Helper lemmas -/

lemma sampleVariance_nonneg (w : List ℚ) : 0 ≤ sampleVariance w := by
  rcases w with _ | ⟨a, w⟩
  · simp [sampleVariance]
  rcases w with _ | ⟨b, w⟩
  · simp [sampleVariance, mean]
  · unfold sampleVariance
    apply div_nonneg
    · apply List.sum_nonneg
      intro x hx
      obtain ⟨y, -, rfl⟩ := List.mem_map.mp hx
      positivity
    · have h : (2 : ℚ) ≤ ((a :: b :: w).length : ℚ) := by
        simp only [List.length_cons]
        push_cast
        have := Nat.cast_nonneg (α := ℚ) w.length
        linarith
      linarith

lemma roundHalfEven_nonneg (q : ℚ) (hq : 0 ≤ q) : 0 ≤ roundHalfEven q := by
  have h0 : (0 : ℤ) ≤ ⌊q⌋ := Int.floor_nonneg.mpr hq
  unfold roundHalfEven
  split_ifs <;> omega

lemma roundHalfEven_le_ceil (q : ℚ) : roundHalfEven q ≤ ⌈q⌉ := by
  have h1 : ⌊q⌋ ≤ ⌈q⌉ := Int.floor_le_ceil q
  have h2 : q ≤ (⌈q⌉ : ℚ) := Int.le_ceil q
  unfold roundHalfEven
  split_ifs with ha hb hc
  · exact h1
  all_goals
    first
    | exact h1
    | · have hlt : (⌊q⌋ : ℚ) < q := by linarith
        have : ⌊q⌋ < ⌈q⌉ := by exact_mod_cast lt_of_lt_of_le hlt h2
        omega

lemma roundTo_nonneg (d : ℕ) (q : ℚ) (hq : 0 ≤ q) : 0 ≤ roundTo d q := by
  unfold roundTo
  apply div_nonneg _ (by positivity)
  have := roundHalfEven_nonneg (q * 10 ^ d) (by positivity)
  exact_mod_cast this

lemma roundTo_le_int (d : ℕ) (q : ℚ) (n : ℤ) (h : q ≤ (n : ℚ)) : roundTo d q ≤ (n : ℚ) := by
  unfold roundTo
  rw [div_le_iff₀ (by positivity)]
  have h1 : roundHalfEven (q * 10 ^ d) ≤ ⌈q * 10 ^ d⌉ := roundHalfEven_le_ceil _
  have h2 : ⌈q * 10 ^ d⌉ ≤ n * 10 ^ d := by
    apply Int.ceil_le.mpr
    push_cast
    have h10 : (0 : ℚ) ≤ 10 ^ d := by positivity
    nlinarith
  calc ((roundHalfEven (q * 10 ^ d) : ℤ) : ℚ) ≤ ((⌈q * 10 ^ d⌉ : ℤ) : ℚ) := by exact_mod_cast h1
    _ ≤ ((n * 10 ^ d : ℤ) : ℚ) := by exact_mod_cast h2
    _ = (n : ℚ) * 10 ^ d := by push_cast; ring

lemma updateBaseline_drop (cap : ℕ) (hcap : 0 < cap) (w : List ℚ) (v : ℚ) :
    updateBaseline cap w v = (w ++ [v]).drop ((w.length + 1) - cap) := by
  simp only [updateBaseline, pySliceLast]
  have hlen : (w ++ [v]).length = w.length + 1 := by simp
  split_ifs with h1 h2
  · omega
  · rw [hlen]
  · have h0 : w.length + 1 - cap = 0 := by rw [hlen] at h1; omega
    rw [h0, List.drop_zero]

lemma runBaseline_aux (cap : ℕ) (hcap : 0 < cap) (vs : List ℚ) :
    ∀ w : List ℚ, w.length ≤ cap →
      vs.foldl (updateBaseline cap) w = (w ++ vs).drop ((w.length + vs.length) - cap) := by
  induction vs with
  | nil =>
    intro w hw
    simp [Nat.sub_eq_zero_of_le hw]
  | cons v vs ih =>
    intro w hw
    rw [List.foldl_cons, updateBaseline_drop cap hcap]
    have hlen2 : (w ++ [v]).length = w.length + 1 := by simp
    have hdle : (w.length + 1) - cap ≤ (w ++ [v]).length := by omega
    have hle : ((w ++ [v]).drop ((w.length + 1) - cap)).length ≤ cap := by
      simp only [List.length_drop, hlen2]
      omega
    rw [ih _ hle, ← List.drop_append_of_le_length hdle, List.drop_drop]
    have hassoc : (w ++ [v]) ++ vs = w ++ v :: vs := by simp
    rw [hassoc]
    congr 1
    simp only [List.length_drop, hlen2, List.length_cons]
    omega

lemma finalSafetyCheck_true (fs : FS) (p : String) (h : finalSafetyCheck fs p = true) :
    lowerStr (pySuffix p) ∉ ([".exe", ".dll", ".sys"] : List String) ∧
    (∃ sz, fs.size p = some sz ∧ sz ≤ 100 * 1024 * 1024) ∧
    strContains (lowerStr p) "system32" = false ∧
    strContains (lowerStr p) "program files" = false := by
  unfold finalSafetyCheck at h
  split_ifs at h with h1 h2
  rcases hsz : fs.size p with _ | sz
  · rw [hsz] at h
    simp at h
  · rw [hsz] at h
    dsimp only at h
    split_ifs at h with h3
    simp only [Bool.not_or, Bool.and_eq_true, Bool.not_eq_true'] at h
    exact ⟨h1, ⟨sz, rfl, by omega⟩, h.1, h.2⟩

lemma cleanup_fold_inv (fs : FS) (l : List Target) (s : RunState) :
    ((l.foldl (cleanupStep fs) s).removedRev.length ≤ s.removedRev.length + l.length) ∧
    (∀ t ∈ (l.foldl (cleanupStep fs) s).removedRev,
      t ∈ s.removedRev ∨ (t ∈ l ∧ finalSafetyCheck fs t.path = true)) := by
  induction l generalizing s with
  | nil => simp
  | cons a l ih =>
    rw [List.foldl_cons]
    obtain ⟨ih1, ih2⟩ := ih (cleanupStep fs s a)
    have hstep : (cleanupStep fs s a).removedRev.length ≤ s.removedRev.length + 1 := by
      unfold cleanupStep
      split_ifs <;> simp
    have hmem : ∀ t ∈ (cleanupStep fs s a).removedRev,
        t ∈ s.removedRev ∨ (t = a ∧ finalSafetyCheck fs a.path = true) := by
      intro t ht
      unfold cleanupStep at ht
      split_ifs at ht with hcond hfail
      · exact Or.inl ht
      · simp only [List.mem_cons] at ht
        rcases ht with rfl | ht
        · refine Or.inr ⟨rfl, ?_⟩
          simp only [Bool.and_eq_true] at hcond
          exact hcond.2
        · exact Or.inl ht
      · exact Or.inl ht
    constructor
    · calc (l.foldl (cleanupStep fs) (cleanupStep fs s a)).removedRev.length
          ≤ (cleanupStep fs s a).removedRev.length + l.length := ih1
        _ ≤ s.removedRev.length + 1 + l.length := by omega
        _ = s.removedRev.length + (a :: l).length := by simp [List.length_cons]; omega
    · intro t ht
      rcases ih2 t ht with h | ⟨hl, hc⟩
      · rcases hmem t h with h2 | ⟨rfl, hc⟩
        · exact Or.inl h2
        · exact Or.inr ⟨List.mem_cons_self _ _, hc⟩
      · exact Or.inr ⟨List.mem_cons_of_mem _ hl, hc⟩

lemma performCleanup_example_eval :
    performCleanup true exampleFS [exampleTargetA, exampleTargetB] =
      ⟨1, 20, ["temp"], 0, [exampleTargetB]⟩ := by
  have hsel : ([exampleTargetA, exampleTargetB].filter fun t =>
      decide ((7/10 : ℚ) < t.safety_score ∧ (5/10 : ℚ) < t.priority)) =
      [exampleTargetA, exampleTargetB] := by
    simp [exampleTargetA, exampleTargetB]
    norm_num
  simp only [performCleanup, hsel, if_true]
  simp +decide [cleanupStep, fileExistsIn, finalSafetyCheck, initRun, exampleFS,
    exampleTargetA, exampleTargetB]

lemma monitorFlags_c1_eval : monitorFlags [] c1Samples = List.replicate 12 false := by
  norm_num [c1Samples, monitorFlags, detectAnomaly, updateBaseline, pySliceLast,
    stdevSqOrZero, sampleVariance, mean, anomalyThreshold, List.replicate]

/-! ### Claim theorems -/

/-- C3: for inputs in [0,100] the health score equals the spec formula
(weighted max-of-zero scores, halved before rounding when cpu>90 or
memory>95, rounded to one decimal), the result lies in [0,100], the score
at (0,0,0) is 100, and the score at (95,0,0) is at most half the
unpenalized weighted value. -/
theorem healthScore_spec (cpu memory disk : ℚ)
    (hc0 : 0 ≤ cpu) (hc1 : cpu ≤ 100) (hm0 : 0 ≤ memory) (hm1 : memory ≤ 100)
    (hd0 : 0 ≤ disk) (hd1 : disk ≤ 100) :
    healthScore cpu memory disk = healthScoreSpecFormula cpu memory disk ∧
    0 ≤ healthScore cpu memory disk ∧ healthScore cpu memory disk ≤ 100 ∧
    healthScore 0 0 0 = 100 ∧
    2 * healthScore 95 0 0 ≤ 4/10 * 5 + 4/10 * 100 + 2/10 * 100 := by
  have hb : ∀ x : ℚ, 0 ≤ x → x ≤ 100 → 0 ≤ max 0 (100 - x) ∧ max 0 (100 - x) ≤ 100 := by
    intro x hx0 hx1
    constructor
    · exact le_max_left 0 (100 - x)
    · exact max_le (by norm_num) (by linarith)
  obtain ⟨hcL, hcU⟩ := hb cpu hc0 hc1
  obtain ⟨hmL, hmU⟩ := hb memory hm0 hm1
  obtain ⟨hdL, hdU⟩ := hb disk hd0 hd1
  refine ⟨?_, ?_, ?_, ?_, ?_⟩
  · unfold healthScore healthScoreSpecFormula
    split_ifs with h
    · exact congrArg (roundTo 1) (by ring)
    · exact congrArg (roundTo 1) (by ring)
  · unfold healthScore
    apply roundTo_nonneg
    split_ifs with h <;> linarith
  · unfold healthScore
    have h100 : ((100 : ℤ) : ℚ) = 100 := by norm_num
    rw [← h100]
    apply roundTo_le_int
    rw [h100]
    split_ifs with h <;> linarith
  · norm_num [healthScore, roundTo, roundHalfEven]
  · have h95 : healthScore 95 0 0 = 31 := by
      norm_num [healthScore, roundTo, roundHalfEven]
    rw [h95]
    norm_num

/-- C3 witness: the theorem instantiated at (50, 50, 50). -/
theorem healthScore_spec_witness :
    healthScore 50 50 50 = healthScoreSpecFormula 50 50 50 ∧
    0 ≤ healthScore 50 50 50 ∧ healthScore 50 50 50 ≤ 100 := by
  have h := healthScore_spec 50 50 50 (by norm_num) (by norm_num) (by norm_num)
    (by norm_num) (by norm_num) (by norm_num)
  exact ⟨h.1, h.2.1, h.2.2.1⟩

/-- C7: with a positive configured capacity (the program configures 50),
the baseline window never exceeds the capacity, after more than `cap`
appends it holds exactly the last `cap` appended values in order, and with
at most `cap` appends it holds all appended values in order. -/
theorem baseline_fifo (cap : ℕ) (vs : List ℚ) (hcap : 0 < cap) :
    (runBaseline cap vs).length ≤ cap ∧
    (cap < vs.length → runBaseline cap vs = vs.drop (vs.length - cap)) ∧
    (vs.length ≤ cap → runBaseline cap vs = vs) := by
  have h := runBaseline_aux cap hcap vs [] (by simp)
  simp only [List.nil_append, List.length_nil, Nat.zero_add] at h
  unfold runBaseline
  rw [h]
  refine ⟨?_, fun hlt => rfl, fun hle => ?_⟩
  · simp only [List.length_drop]
    omega
  · have h0 : vs.length - cap = 0 := by omega
    rw [h0, List.drop_zero]

/-- C7 witness: the theorem instantiated at capacity 3 and five appends. -/
theorem baseline_fifo_witness :
    (runBaseline 3 [1, 2, 3, 4, 5]).length ≤ 3 ∧
    runBaseline 3 [1, 2, 3, 4, 5] = [3, 4, 5] := by
  have h := baseline_fifo 3 [1, 2, 3, 4, 5] (by norm_num)
  refine ⟨h.1, ?_⟩
  have h2 := h.2.1 (by norm_num)
  simpa using h2

/-- C2: the anomaly detector flags value `v` against window `w` exactly
when the window has at least 10 entries, the Bessel-corrected sample
standard deviation exceeds 0.5, and `|v − mean(w)|` exceeds 2 times that
standard deviation. -/
theorem detectAnomaly_iff (w : List ℚ) (v : ℚ) :
    detectAnomaly w v = true ↔
      10 ≤ w.length ∧
      (1/2 : ℝ) < Real.sqrt ((sampleVariance w : ℚ) : ℝ) ∧
      2 * Real.sqrt ((sampleVariance w : ℚ) : ℝ) <
        |(v : ℝ) - ((mean w : ℚ) : ℝ)| := by
  by_cases hlen : 10 ≤ w.length
  · have h1 : 1 < w.length := by omega
    have hs : (0 : ℚ) ≤ sampleVariance w := sampleVariance_nonneg w
    have hsR : (0 : ℝ) ≤ ((sampleVariance w : ℚ) : ℝ) := by exact_mod_cast hs
    have hsv : stdevSqOrZero w = sampleVariance w := if_pos h1
    have e1 : ((1/4 : ℚ) < sampleVariance w) ↔
        ((1/2 : ℝ) < Real.sqrt ((sampleVariance w : ℚ) : ℝ)) := by
      rw [Real.lt_sqrt (by norm_num : (0:ℝ) ≤ 1/2)]
      constructor
      · intro h
        have h2 : (((1:ℚ)/4 : ℚ) : ℝ) < ((sampleVariance w : ℚ) : ℝ) := by exact_mod_cast h
        calc ((1:ℝ)/2) ^ 2 = (((1:ℚ)/4 : ℚ) : ℝ) := by norm_num
          _ < _ := h2
      · intro h
        have h2 : (((1:ℚ)/4 : ℚ) : ℝ) < ((sampleVariance w : ℚ) : ℝ) := by
          calc (((1:ℚ)/4 : ℚ) : ℝ) = ((1:ℝ)/2) ^ 2 := by norm_num
            _ < _ := h
        exact_mod_cast h2
    have hform : 2 * Real.sqrt ((sampleVariance w : ℚ) : ℝ) =
        Real.sqrt (4 * ((sampleVariance w : ℚ) : ℝ)) := by
      rw [show (4:ℝ) * ((sampleVariance w : ℚ) : ℝ) =
        2 ^ 2 * ((sampleVariance w : ℚ) : ℝ) by ring,
        Real.sqrt_mul (by positivity), Real.sqrt_sq (by norm_num)]
    have hcast : ((v - mean w : ℚ) : ℝ) = (v : ℝ) - ((mean w : ℚ) : ℝ) := by push_cast; ring
    have e2core : ((4 : ℚ) * sampleVariance w < (v - mean w) ^ 2) ↔
        ((4 : ℝ) * ((sampleVariance w : ℚ) : ℝ) <
          ((v : ℝ) - ((mean w : ℚ) : ℝ)) ^ 2) := by
      rw [← Rat.cast_lt (K := ℝ)]
      push_cast
      rfl
    have e2 : ((4 : ℚ) * sampleVariance w < (v - mean w) ^ 2) ↔
        (2 * Real.sqrt ((sampleVariance w : ℚ) : ℝ) <
          |(v : ℝ) - ((mean w : ℚ) : ℝ)|) := by
      rw [hform, e2core]
      rcases lt_or_eq_of_le (abs_nonneg ((v : ℝ) - ((mean w : ℚ) : ℝ))) with hpos | hzero
      · rw [Real.sqrt_lt' hpos, sq_abs]
      · have hd0 : (v : ℝ) - ((mean w : ℚ) : ℝ) = 0 := by
          rwa [eq_comm, abs_eq_zero] at hzero
        rw [hd0]
        norm_num
        constructor
        · intro h
          exfalso
          nlinarith
        · intro h
          exfalso
          exact absurd h (not_lt.mpr (by positivity))
    simp only [detectAnomaly, hsv]
    rw [if_pos hlen, decide_eq_true_eq,
      show anomalyThreshold ^ 2 = (4:ℚ) from by norm_num [anomalyThreshold], e1, e2]
    exact ⟨fun h => ⟨hlen, h⟩, fun h => h.2⟩
  · simp [detectAnomaly, hlen]

/-- C10: the guard of `_detect_anomalies` (at least 10 baseline samples)
makes the `len(baseline) > 1` fallback to zero unreachable, and the Bessel
divisor `n − 1` is nonzero, so the sample standard deviation is
well-defined. -/
theorem stdev_fallback_unreachable (w : List ℚ) (h : 10 ≤ w.length) :
    1 < w.length ∧ stdevSqOrZero w = sampleVariance w ∧ ((w.length : ℚ) - 1) ≠ 0 := by
  have h1 : 1 < w.length := by omega
  refine ⟨h1, if_pos h1, ?_⟩
  have h2 : (1 : ℚ) < (w.length : ℚ) := by exact_mod_cast h1
  intro heq
  linarith

/-- C10 witness: the theorem instantiated at a 10-entry window. -/
theorem stdev_fallback_unreachable_witness :
    stdevSqOrZero (List.replicate 10 (50 : ℚ)) = sampleVariance (List.replicate 10 (50 : ℚ)) :=
  (stdev_fallback_unreachable (List.replicate 10 (50 : ℚ)) (by simp)).2.1

/-- C8: with at least 5 window entries the trend is computed from the last
five entries as slope = (last − first)/5 and classified increasing when
slope > 1, decreasing when slope < −1, stable otherwise; with fewer than 5
entries no trend entry is produced. -/
theorem analyzeTrend_spec (w : List ℚ) :
    (w.length < 5 → analyzeTrend w = none) ∧
    (5 ≤ w.length →
      analyzeTrend w = some ⟨(if 1 < trendSlope w then "increasing"
        else if trendSlope w < -1 then "decreasing" else "stable"),
        roundTo 2 (trendSlope w)⟩) := by
  constructor
  · intro h
    simp only [analyzeTrend]
    rw [if_neg (by omega)]
  · intro h
    have h5 : pySliceLast 5 w = w.drop (w.length - 5) := by
      simp [pySliceLast]
    have hlen : (w.drop (w.length - 5)).length = 5 := by
      simp only [List.length_drop]
      omega
    have hi4 : (w.drop (w.length - 5))[5 - 1]? = w[w.length - 1]? := by
      rw [List.getElem?_drop]
      congr 1
      omega
    have hi0 : (w.drop (w.length - 5))[0]? = w[w.length - 5]? := by
      rw [List.getElem?_drop]
      congr 1
    simp only [analyzeTrend, h5, hlen]
    rw [if_pos h, if_pos (by norm_num : (1:ℕ) < 5), hi4, hi0]
    simp only [trendSlope]
    norm_num

/-- C8 witness: the theorem instantiated at a six-entry window with a
steep rise. -/
theorem analyzeTrend_spec_witness :
    analyzeTrend [1, 2, 3, 4, 5, 20] = some ⟨"increasing", 18/5⟩ := by
  have h := (analyzeTrend_spec [1, 2, 3, 4, 5, 20]).2 (by norm_num)
  rw [h]
  have hslope : trendSlope [1, 2, 3, 4, 5, 20] = 18/5 := by
    simp [trendSlope]
    norm_num
  rw [hslope]
  norm_num [roundTo, roundHalfEven]

/-- C4 counterexample: a zero-age, zero-size file named a.tmpx (extension
.tmpx, which is not one of the six disposable extensions but contains
.tmp as a substring, on a path without temp).  The code gives type score
0.8 and priority 0.21, while the claim formula with set membership gives
type score 0.3 and priority 0.11. -/
theorem cleanupPriority_member_cex :
    cleanupPriority 0 "a.tmpx" 0 0 = 21/100 ∧
    claimPriorityMember "a.tmpx" (pyAgeDays 0 0) 0 = 11/100 ∧
    cleanupPriority 0 "a.tmpx" 0 0 ≠ claimPriorityMember "a.tmpx" (pyAgeDays 0 0) 0 := by
  have h1 : disposableExts.any (fun e => strContains (lowerStr (pySuffix "a.tmpx")) e) = true := by
    decide
  have h2 : strContains (lowerStr "a.tmpx") "temp" = false := by decide
  have h3 : pyAgeDays 0 0 = 0 := by norm_num [pyAgeDays]
  have h4 : (lowerStr (pySuffix "a.tmpx") ∈ disposableExts) = False := by decide
  have hcode : cleanupPriority 0 "a.tmpx" 0 0 = 21/100 := by
    simp only [cleanupPriority, h1, h2, h3, if_true]
    norm_num [roundTo, roundHalfEven, min_def]
  have hclaim : claimPriorityMember "a.tmpx" (pyAgeDays 0 0) 0 = 11/100 := by
    simp only [claimPriorityMember, claimTypeScoreMember, claimLocationScore, h2, h3, h4]
    norm_num [roundTo, roundHalfEven, min_def]
  refine ⟨hcode, hclaim, ?_⟩
  rw [hcode, hclaim]
  norm_num

/-- C4 as amended: the cleanup priority equals
round(0.4·min(1, age/30) + 0.3·min(1, size/100) + 0.2·type + 0.1·location, 3)
where the type score is 0.8 exactly when the lowercased extension contains
one of .tmp, .cache, .log, .out, .bak, .old as a substring (0.3 otherwise)
and the location score is 0.9 exactly when the path contains temp
case-insensitively (0.5 otherwise); a file aged 31 days, 50MB, extension
.tmp, on a temp path has priority 0.80. -/
theorem cleanupPriority_amended (now mtime size_mb : ℚ) (path : String) :
    cleanupPriority now path mtime size_mb =
      claimPriorityAmended path (pyAgeDays now mtime) size_mb ∧
    cleanupPriority (31 * 86400) "temp/file.tmp" 0 50 = 8/10 := by
  constructor
  · simp only [cleanupPriority, claimPriorityAmended, claimTypeScoreSub, claimLocationScore]
    exact congrArg (roundTo 3) (by ring)
  · have h1 : disposableExts.any
        (fun e => strContains (lowerStr (pySuffix "temp/file.tmp")) e) = true := by decide
    have h2 : strContains (lowerStr "temp/file.tmp") "temp" = true := by decide
    have h3 : pyAgeDays (31 * 86400) 0 = 31 := by norm_num [pyAgeDays]
    simp only [cleanupPriority, h1, h2, h3, if_true]
    norm_num [roundTo, roundHalfEven, min_def]

/-- C5: the cleanup executor removes at most 15 files per invocation,
removes only candidates from the given list with safety score above 0.7
and priority above 0.5 whose path passes the final safety check (extension
not .exe/.dll/.sys, stat size at most 100 MiB, path containing neither
system32 nor program files), and removes nothing when auto-cleanup is
disabled. -/
theorem performCleanup_policy (autoCleanup : Bool) (fs : FS) (targets : List Target) :
    (performCleanup autoCleanup fs targets).removedRev.length ≤ 15 ∧
    (∀ t ∈ (performCleanup autoCleanup fs targets).removedRev,
      t ∈ targets ∧ (7/10 : ℚ) < t.safety_score ∧ (5/10 : ℚ) < t.priority ∧
      lowerStr (pySuffix t.path) ∉ ([".exe", ".dll", ".sys"] : List String) ∧
      (∃ sz, fs.size t.path = some sz ∧ sz ≤ 100 * 1024 * 1024) ∧
      strContains (lowerStr t.path) "system32" = false ∧
      strContains (lowerStr t.path) "program files" = false) ∧
    (autoCleanup = false → performCleanup autoCleanup fs targets = initRun) := by
  cases autoCleanup with
  | false => simp [performCleanup, initRun]
  | true =>
    have hPC : performCleanup true fs targets =
        ((targets.filter fun t =>
          decide ((7/10 : ℚ) < t.safety_score ∧ (5/10 : ℚ) < t.priority)).take 15).foldl
            (cleanupStep fs) initRun := by
      simp [performCleanup]
    obtain ⟨h1, h2⟩ := cleanup_fold_inv fs
      ((targets.filter fun t =>
        decide ((7/10 : ℚ) < t.safety_score ∧ (5/10 : ℚ) < t.priority)).take 15) initRun
    refine ⟨?_, ?_, by simp⟩
    · rw [hPC]
      have htake := List.length_take_le 15 (targets.filter fun t =>
        decide ((7/10 : ℚ) < t.safety_score ∧ (5/10 : ℚ) < t.priority))
      have h0 : initRun.removedRev.length = 0 := rfl
      omega
    · intro t ht
      rw [hPC] at ht
      rcases h2 t ht with h | ⟨hmem, hc⟩
      · simp [initRun] at h
      · have hmem2 := List.mem_of_mem_take hmem
        obtain ⟨hmem3, hcond⟩ := List.mem_filter.mp hmem2
        have hcond2 : (7/10 : ℚ) < t.safety_score ∧ (5/10 : ℚ) < t.priority := by
          simpa using hcond
        obtain ⟨hna, hsz, hs32, hpf⟩ := finalSafetyCheck_true fs t.path hc
        exact ⟨hmem3, hcond2.1, hcond2.2, hna, hsz, hs32, hpf⟩

/-- C5 witness: with auto-cleanup disabled the example invocation removes
nothing. -/
theorem performCleanup_policy_witness :
    performCleanup false exampleFS [exampleTargetA, exampleTargetB] = initRun :=
  (performCleanup_policy false exampleFS [exampleTargetA, exampleTargetB]).2.2 rfl

/-- C6 counterexample: unlinking a.tmp raises while b.tmp succeeds; the
batch is not aborted (b.tmp is still removed), but the failed file is not
counted as skipped: the returned statistics show one removal and zero
safety-skips, so the failure appears in no outcome statistic. -/
theorem cleanup_unlink_not_counted_cex :
    exampleFS.unlinkFails exampleTargetA.path = true ∧
    fileExistsIn exampleFS initRun exampleTargetA.path = true ∧
    finalSafetyCheck exampleFS exampleTargetA.path = true ∧
    (performCleanup true exampleFS [exampleTargetA, exampleTargetB]).cleanedCount = 1 ∧
    (performCleanup true exampleFS [exampleTargetA, exampleTargetB]).removedRev =
      [exampleTargetB] ∧
    (performCleanup true exampleFS [exampleTargetA, exampleTargetB]).safetySkipped = 0 := by
  rw [performCleanup_example_eval]
  refine ⟨by decide, by decide, by decide, rfl, rfl, rfl⟩

/-- C6 as amended: a per-item failure never aborts the batch — the
remaining candidates are processed from the same running state — but only
a stat failure is counted as safety-skipped (the final safety check
returns False for it); an unlink failure (stat succeeded, delete raised)
leaves every returned statistic untouched and is counted nowhere. -/
theorem cleanup_item_failure (fs : FS) (s : RunState) (t : Target) (l : List Target)
    (hex : fileExistsIn fs s t.path = true) :
    (finalSafetyCheck fs t.path = true → fs.unlinkFails t.path = true →
      (t :: l).foldl (cleanupStep fs) s = l.foldl (cleanupStep fs) s) ∧
    (fs.statFails t.path = true →
      (t :: l).foldl (cleanupStep fs) s =
        l.foldl (cleanupStep fs) { s with safetySkipped := s.safetySkipped + 1 }) := by
  constructor
  · intro hc hu
    rw [List.foldl_cons]
    congr 1
    unfold cleanupStep
    rw [hex, hc]
    simp [hu]
  · intro hstat
    rw [List.foldl_cons]
    congr 1
    have hc : finalSafetyCheck fs t.path = false := by
      simp [finalSafetyCheck, hstat]
    unfold cleanupStep
    rw [hc]
    simp

/-- C6 witness: the amended theorem instantiated at the example batch
whose first unlink raises. -/
theorem cleanup_item_failure_witness :
    (exampleTargetA :: [exampleTargetB]).foldl (cleanupStep exampleFS) initRun =
      [exampleTargetB].foldl (cleanupStep exampleFS) initRun := by
  have h := cleanup_item_failure exampleFS initRun exampleTargetA [exampleTargetB] (by decide)
  exact h.1 (by decide) (by decide)

/-- C9: the cleanup scan writes no guardian state, so running it twice
over the same unchanged file records at the same reference time yields
identical ranked candidate lists. -/
theorem scanCleanup_idempotent (g : GuardianState) (now : ℚ) (files : List FileRec) :
    (scanWithState g now files).2 = g ∧
    (scanWithState (scanWithState g now files).2 now files).1 =
      (scanWithState g now files).1 :=
  ⟨rfl, rfl⟩

/-- C1 counterexample: in the 12-sample scenario (cpu 50 throughout except
99 as the 11th sample) the detector does not flag sample 11 (index 10):
the ten prior window entries are constant, so the standard deviation is 0
and fails the σ > 0.5 floor. -/
theorem monitor_sample11_not_flagged_cex :
    (monitorFlags [] c1Samples)[10]? = some false := by
  rw [monitorFlags_c1_eval]
  decide

/-- C1 as amended: over the 12-sample scenario the detector flags cpu on
no sample at all; after the first ten samples the window is ten copies of
50, whose Bessel-corrected sample variance is 0, blocked by the σ > 0.5
floor. -/
theorem monitor_flags_none :
    monitorFlags [] c1Samples = List.replicate 12 false ∧
    runBaseline 50 (c1Samples.take 10) = c1Samples.take 10 ∧
    sampleVariance (c1Samples.take 10) = 0 := by
  refine ⟨monitorFlags_c1_eval, ?_, ?_⟩
  · norm_num [c1Samples, runBaseline, updateBaseline, pySliceLast]
  · norm_num [c1Samples, sampleVariance, mean]

end SystemGuardian
